import Mathlib

/-!
# Verification development for `mediaexchange-io/log`

A shallow embedding of the Go package `log` (`field.go`, `logger.go`) and
theorems about it.

Conventions of the embedding:

* A Go `string` and a `[]byte` obtained from it are a Lean `String`; `+` on
  strings is `++`.
* A function that can panic returns `Option`; `none` is the panic.
* An interface value (`any`, `error`, `io.Writer`, `*net.UDPConn`) is an
  `Option`; `none` is the `nil` interface / pointer.
* The package-level variables of `logger.go` are the fields of `Logger`; the
  writes performed on the sinks are recorded, in order, in `Logger.out`.
-/

namespace Log

/-! ## The parts of `reflect` and `strconv` that `field.go` uses -/

/-- The kinds of `reflect.Kind`, in the order of the Go declaration. -/
inductive Kind
  | Invalid | Bool
  | Int | Int8 | Int16 | Int32 | Int64
  | Uint | Uint8 | Uint16 | Uint32 | Uint64 | Uintptr
  | Float32 | Float64 | Complex64 | Complex128
  | Array | Chan | Func | Interface | Map | Pointer | Slice
  | String | Struct | UnsafePointer
  deriving DecidableEq, Repr

/-- The table `kindNames` of package `reflect`, which the method
`reflect.Kind.String` returns an entry of. -/
def kindNames : Kind → String
  | .Invalid => "invalid"
  | .Bool => "bool"
  | .Int => "int"
  | .Int8 => "int8"
  | .Int16 => "int16"
  | .Int32 => "int32"
  | .Int64 => "int64"
  | .Uint => "uint"
  | .Uint8 => "uint8"
  | .Uint16 => "uint16"
  | .Uint32 => "uint32"
  | .Uint64 => "uint64"
  | .Uintptr => "uintptr"
  | .Float32 => "float32"
  | .Float64 => "float64"
  | .Complex64 => "complex64"
  | .Complex128 => "complex128"
  | .Array => "array"
  | .Chan => "chan"
  | .Func => "func"
  | .Interface => "interface"
  | .Map => "map"
  | .Pointer => "ptr"
  | .Slice => "slice"
  | .String => "string"
  | .Struct => "struct"
  | .UnsafePointer => "unsafe.Pointer"

/-- A Go type as `reflect.Type` shows it: the name of the type (what
`Type.String` returns, such as `float64`, `time.Duration` or `main.Point`)
and its kind. -/
structure GoType where
  Name : String
  kind : Kind
  deriving DecidableEq, Repr

/-- The data a dynamic value carries, as far as `field.go` can observe it. -/
inductive Data
  | bool (b : Bool)
  | int (i : Int)
  | str (s : String)
  | other
  deriving DecidableEq, Repr

/-- A non-nil dynamic value: its dynamic type and its data. -/
structure Value where
  typ : GoType
  data : Data
  deriving DecidableEq, Repr

/-- A value of Go's `any`: `none` is the nil interface value. -/
abbrev GoAny := Option Value

/-- The function `reflect.TypeOf`: the dynamic type, and the nil `Type` for
the nil interface value. -/
def TypeOf (value : GoAny) : Option GoType :=
  value.map Value.typ

/-- The function `reflect.ValueOf`: the value itself, and the zero `Value`,
of kind `Invalid`, for the nil interface value. -/
def ValueOf (value : GoAny) : Value :=
  match value with
  | some v => v
  | none => { typ := { Name := "", kind := Kind.Invalid }, data := Data.other }

/-- The method `Type.Kind` called through the interface value returned by
`TypeOf`: calling it on the nil `Type` is a nil dereference, a panic. -/
def typeKind (t : Option GoType) : Option Kind :=
  t.map GoType.kind

/-- The method `reflect.Value.Bool`: panics unless the kind is `Bool`. -/
def Value.Bool (v : Value) : Option Bool :=
  match v.typ.kind, v.data with
  | .Bool, .bool b => some b
  | _, _ => none

/-- The method `reflect.Value.Int`: the value as an `int64`; panics unless
the kind is one of the signed integer kinds. -/
def Value.Int (v : Value) : Option Int :=
  match v.typ.kind, v.data with
  | .Int, .int i => some i
  | .Int8, .int i => some i
  | .Int16, .int i => some i
  | .Int32, .int i => some i
  | .Int64, .int i => some i
  | _, _ => none

/-- The method `reflect.Value.String`: the string itself for kind `String`;
for any other kind it does not panic and returns `<T Value>`. -/
def Value.String (v : Value) : String :=
  match v.typ.kind, v.data with
  | .String, .str s => s
  | .Invalid, _ => "<invalid Value>"
  | _, _ => "<" ++ v.typ.Name ++ " Value>"

/-- The byte `'0' + d` of a decimal digit `d`. -/
def digitChar (d : Nat) : Char :=
  Char.ofNat (48 + d)

/-- The digits that `strconv.formatBits` writes in base 10, one per step:
they are produced from the least significant one and stored from the end of
the buffer, until the rest is below 10. `fuel` bounds the number of digits (a
`uint64` has at most 20). -/
def formatBits : Nat → Nat → List Char → List Char
  | 0, _, acc => acc
  | fuel + 1, u, acc =>
    if u < 10 then digitChar u :: acc
    else formatBits fuel (u / 10) (digitChar (u % 10) :: acc)

/-- The function `strconv.FormatInt(i, 10)` for an `int64` `i`: the magnitude
is taken as a `uint64` (`u := uint64(i)`, and `u = -u` for a negative `i`),
its digits are written, and a `-` is put in front of a negative number. -/
def FormatInt (i : Int) : String :=
  let u0 : Nat := (i % 2 ^ 64).toNat
  let u : Nat := if i < 0 then (2 ^ 64 - u0) % 2 ^ 64 else u0
  let digits := formatBits 20 u []
  String.mk (if i < 0 then '-' :: digits else digits)

/-! ## `field.go` -/

/-- Field stores a name/value pair to be formatted by the emitter. -/
structure Field where
  Name : String
  StringValue : String
  Quoted : Bool
  deriving DecidableEq, Repr

/-- F returns a field with any value converted to a string, ready for
logging. `none` is a panic. -/
def F (name : String) (value : GoAny) : Option Field := do
  let f : Field := { Name := name, StringValue := "", Quoted := false }
  let t := TypeOf value
  let v := ValueOf value
  let k ← typeKind t
  match k with
  | .Bool =>
    let b ← v.Bool
    if b then
      pure { f with StringValue := "true" }
    else
      pure { f with StringValue := "false" }
  | .Int | .Int8 | .Int16 | .Int32 | .Int64 =>
    let i ← v.Int
    pure { f with StringValue := FormatInt i }
  | .String =>
    pure { f with StringValue := v.String, Quoted := true }
  | _ =>
    pure { f with StringValue := "<[Unknown Type " ++ kindNames k ++ "]>" }

/-- A non-nil value of Go's `error`: `Error` is what its method `Error()`
returns. -/
structure GoError where
  Error : String
  deriving DecidableEq, Repr

/-- Err returns a Field that contains the message from an error. Calling
`Error()` on the nil `error` is a nil dereference, a panic (`none`). -/
def Err (value : Option GoError) : Option Field :=
  value.map fun e => { Name := "error", Quoted := true, StringValue := e.Error }

/-- quotedValue converts the field's value into a string. -/
def quotedValue (field : Field) : String :=
  if field.Quoted then
    "\"" ++ field.StringValue ++ "\""
  else
    field.StringValue

/-- Json returns the contents of the Field as `"key":value`. -/
def Field.Json (field : Field) : String :=
  "\"" ++ field.Name ++ "\":" ++ quotedValue field

/-- String returns the contents of the Field as `key=value`. -/
def Field.String (field : Field) : String :=
  field.Name ++ "=" ++ field.StringValue

/-! ## The parts of `time`, `io` and `net` that `logger.go` uses -/

/-- An instant as returned by `time.Now().UTC()`, given by what `logger.go`
observes of it: the result of `UnixNano()` and the calendar fields in UTC
that `Format` prints. -/
structure Time where
  UnixNano : Int
  Year : Nat
  Month : Nat
  Day : Nat
  Hour : Nat
  Minute : Nat
  Second : Nat
  Nanosecond : Nat
  deriving DecidableEq, Repr

/-- The helper `appendInt` of package `time`: the decimal digits of `x`,
padded with zeros on the left up to `width`. -/
def appendInt (x : Nat) (width : Nat) : List Char :=
  let digits := formatBits 20 x []
  List.replicate (width - digits.length) '0' ++ digits

/-- The layout `ISO8601Micro = "2006-01-02T15:04:05.000000Z0700"` applied by
`Time.Format` to an instant in UTC: the element `.000000` prints the
microseconds and the element `Z0700` prints `Z` for the zero offset. -/
def Time.Format (t : Time) : String :=
  String.mk (appendInt t.Year 4 ++ '-' :: appendInt t.Month 2 ++ '-' :: appendInt t.Day 2
    ++ 'T' :: appendInt t.Hour 2 ++ ':' :: appendInt t.Minute 2 ++ ':' :: appendInt t.Second 2
    ++ '.' :: appendInt (t.Nanosecond / 1000) 6 ++ ['Z'])

/-- A non-nil `io.Writer`: the standard error stream or another destination,
told apart by a number. -/
inductive Writer
  | Stderr
  | stream (id : Nat)
  deriving DecidableEq, Repr

/-- A resolved `*net.UDPAddr`. -/
structure UDPAddr where
  addr : String
  deriving DecidableEq, Repr

/-- A non-nil `*net.UDPConn`, connected to a remote address. -/
structure UDPConn where
  remote : UDPAddr
  deriving DecidableEq, Repr

/-- The outcome of the two calls into package `net` made by `SetServer`; `none`
is a non-nil `err`. -/
structure Net where
  ResolveUDPAddr : String → Option UDPAddr
  DialUDP : UDPAddr → Option UDPConn

/-! ## `Level` -/

/-- Modelled from the spec: the type `Level` and its constants are declared
in a file that is not part of the sources at hand (section 4.2: four ordered
constants `DEBUG < INFO < WARN < ERROR`, compared by ordinal). -/
inductive Level
  | DEBUG | INFO | WARN | ERROR
  deriving DecidableEq, Repr

/-- Modelled from the spec: the ordinal of a level (section 4.2, comparison
is by ordinal). -/
def Level.ord : Level → Nat
  | .DEBUG => 0
  | .INFO => 1
  | .WARN => 2
  | .ERROR => 3

instance : LE Level := ⟨fun a b => a.ord ≤ b.ord⟩

instance (a b : Level) : Decidable (a ≤ b) :=
  inferInstanceAs (Decidable (a.ord ≤ b.ord))

/-- Modelled from the spec: the method `Level.String`, missing with the type
(section 4.2: the canonical uppercase name). -/
def Level.String : Level → String
  | .DEBUG => "DEBUG"
  | .INFO => "INFO"
  | .WARN => "WARN"
  | .ERROR => "ERROR"

/-! ## `logger.go` -/

/-- One effect of the package on the outside: a `writer.Write(p)` on the
primary sink, or a `go conn.Write(p)` handed to the mirror. -/
inductive Event
  | Write (w : Writer) (p : String)
  | Send (c : UDPConn) (p : String)
  deriving DecidableEq, Repr

/-- The package-level variables of `logger.go`, and the effects performed so
far, oldest first. The variable `writer` is never nil: `init` assigns
`os.Stderr` and `SetWriter` panics before it would assign nil. -/
structure Logger where
  conn : Option UDPConn
  emitJson : Bool
  level : Level
  programName : String
  writer : Writer
  out : List Event
  deriving DecidableEq, Repr

/-- The result of a configuration call: it returns, or it panics, in the
state given. -/
inductive Result
  | ok (s : Logger)
  | panic (s : Logger)
  deriving DecidableEq, Repr

/-- init creates a default console logger that can be used immediately with
no further configuration necessary. `base` is `path.Base(os.Args[0])`. -/
def init (base : String) : Logger :=
  { conn := none
    emitJson := false
    level := Level.INFO
    programName := base
    writer := Writer.Stderr
    out := [] }

/-- SetEmitJson changes the type of output sent to the aggregator. -/
def SetEmitJson (b : Bool) (s : Logger) : Logger :=
  { s with emitJson := b }

/-- SetLevel changes the minimum level that is emitted. -/
def SetLevel (l : Level) (s : Logger) : Logger :=
  { s with level := l }

/-- SetWriter sets the output for all future log messages not bound for an
aggregator. -/
def SetWriter (w : Option Writer) (s : Logger) : Result :=
  match w with
  | none => Result.panic s
  | some w => Result.ok { s with writer := w }

/-- SetServer starts a UDP client that sends messages to a log aggregation
server. -/
def SetServer (net : Net) (address : String) (s : Logger) : Result :=
  match net.ResolveUDPAddr address with
  | none => Result.panic s
  | some addr =>
    match net.DialUDP addr with
    | none => Result.panic { s with conn := none }
    | some c => Result.ok { s with conn := some c, emitJson := true }

/-- The function `fieldJson`: the fields' JSON forms between braces, a comma
before every field but the first. -/
def fieldJson (fields : List Field) : String :=
  let builder := "\x7b"
  let loop := fields.foldl
    (fun (st : String × Bool) field =>
      let builder := if st.2 then st.1 ++ "," else st.1
      (builder ++ field.Json, true))
    (builder, false)
  loop.1 ++ "\x7d"

/-- The function `fieldString`: a space and the text form, for each field. -/
def fieldString (fields : List Field) : String :=
  fields.foldl (fun builder field => builder ++ " " ++ field.String) ""

/-- The function `json`; `level` and `programName` in its body are the
package-level variables. -/
def json (s : Logger) (t : Time) (message : String) (fields : List Field) : String :=
  "\x7b\"time\":" ++ FormatInt t.UnixNano ++ ",\"name\":\"" ++ s.programName
    ++ "\",\"level\":\"" ++ s.level.String ++ "\",\"message\":\"" ++ message
    ++ "\",\"fields\":" ++ fieldJson fields ++ "\x7d"

/-- The function `text`; `level` and `programName` in its body are the
package-level variables. -/
def text (s : Logger) (t : Time) (message : String) (fields : List Field) : String :=
  t.Format ++ " [" ++ s.programName ++ "] " ++ s.level.String ++ " " ++ message
    ++ fieldString fields ++ "\n"

set_option linter.unusedVariables false in
/-- emit generates the log message and sends it. `t` is `time.Now().UTC()`.
The parameter `level` is not used by the body. -/
def emit (s : Logger) (t : Time) (level : Level) (message : String)
    (fields : List Field) : Logger :=
  let s1 : Logger :=
    match s.conn with
    | some c => { s with out := s.out ++ [Event.Send c (json s t message fields)] }
    | none => s
  if s1.emitJson then
    { s1 with out := s1.out ++ [Event.Write s1.writer (json s1 t message fields)] }
  else
    { s1 with out := s1.out ++ [Event.Write s1.writer (text s1 t message fields)] }

/-- Debug emits a message with the DEBUG level. -/
def Debug (s : Logger) (t : Time) (msg : String) (fields : List Field) : Logger :=
  if s.level ≤ Level.DEBUG then emit s t Level.DEBUG msg fields else s

/-- Info emits a message with the INFO level. -/
def Info (s : Logger) (t : Time) (msg : String) (fields : List Field) : Logger :=
  if s.level ≤ Level.INFO then emit s t Level.INFO msg fields else s

/-- Warn emits a message with the WARN level. -/
def Warn (s : Logger) (t : Time) (msg : String) (fields : List Field) : Logger :=
  if s.level ≤ Level.WARN then emit s t Level.WARN msg fields else s

/-- Error emits a message with the ERROR level. -/
def Error (s : Logger) (t : Time) (msg : String) (fields : List Field) : Logger :=
  if s.level ≤ Level.ERROR then emit s t Level.ERROR msg fields else s

end Log

namespace Log

/-! ## Definitions the statements use -/

/-- The base-10 representation of a natural number as the specification has
it, independent of the code: the decimal digits of Mathlib's `Nat.digits`,
most significant first, and `0` for zero. -/
def decimalDigits (u : Nat) : List Char :=
  if u = 0 then ['0'] else (Nat.digits 10 u).reverse.map digitChar

/-- The base-10 representation of an integer as the specification has it:
the digits of its magnitude, after a `-` when it is negative. -/
def base10 (n : Int) : String :=
  String.mk (if n < 0 then '-' :: decimalDigits n.natAbs else decimalDigits n.natAbs)

/-- One step of reading a decimal numeral: the value read so far, times ten,
plus the digit; nothing when the character is not a digit. -/
def parseStep (acc : Option Nat) (c : Char) : Option Nat :=
  acc.bind fun a => if c.isDigit then some (10 * a + (c.toNat - 48)) else none

/-- Reading a non-empty sequence of decimal digits as a natural number. -/
def parseDigits (ds : List Char) : Option Nat :=
  if ds = [] then none else ds.foldl parseStep (some 0)

/-- The logging operation of call level `c`: `Debug`, `Info`, `Warn` or
`Error`. -/
def logAt (c : Level) : Logger → Time → String → List Field → Logger :=
  match c with
  | .DEBUG => Debug
  | .INFO => Info
  | .WARN => Warn
  | .ERROR => Error

/-- The number of writes that the sink `w` has received among the effects
`out`. -/
def writesTo (w : Writer) (out : List Event) : Nat :=
  out.countP fun e =>
    match e with
    | .Write w1 _ => decide (w1 = w)
    | .Send _ _ => false

/-- An instant used in examples: 2019-11-04 12:50:15.123456789 UTC. -/
def sampleTime : Time :=
  { UnixNano := 1572871815123456789
    Year := 2019, Month := 11, Day := 4
    Hour := 12, Minute := 50, Second := 15
    Nanosecond := 123456789 }

/-- One call into the package: a setter, or the logging operation of level
`c` at the instant `t`. -/
inductive Op
  | setEmitJson (b : Bool)
  | setLevel (l : Level)
  | setWriter (w : Option Writer)
  | setServer (net : Net) (address : String)
  | log (c : Level) (t : Time) (msg : String) (fields : List Field)

/-- The package-level variables and effects as a call leaves them, whether it
returns or panics. -/
def Result.state : Result → Logger
  | .ok s => s
  | .panic s => s

/-- The call `op` made in the state `s`. -/
def step (s : Logger) : Op → Result
  | .setEmitJson b => Result.ok (SetEmitJson b s)
  | .setLevel l => Result.ok (SetLevel l s)
  | .setWriter w => SetWriter w s
  | .setServer net address => SetServer net address s
  | .log c t msg fields => Result.ok (logAt c s t msg fields)

/-- The state after a sequence of calls made one after the other from `s`; a
call that panics leaves the variables as they are at the panic, for the
caller that recovers from it. -/
def run (s : Logger) (ops : List Op) : Logger :=
  ops.foldl (fun st op => (step st op).state) s

/-- The effects that an accepted logging call adds in the state `s`: the JSON
record handed to the mirror, if one is configured, and then the write of the
record, in the configured mode, to the primary sink. -/
def emitted (s : Logger) (t : Time) (msg : String) (fields : List Field) : List Event :=
  (match s.conn with
    | some c => [Event.Send c (json s t msg fields)]
    | none => [])
  ++ [Event.Write s.writer (if s.emitJson then json s t msg fields else text s t msg fields)]

/-- The payloads handed to a mirror among the effects `out`, in order. -/
def mirrored (out : List Event) : List String :=
  out.filterMap fun e =>
    match e with
    | .Send _ p => some p
    | .Write _ _ => none

/-- The decimal digits of `x` as the specification has them, padded with zeros
on the left up to `width`. -/
def zeroPad (width : Nat) (x : Nat) : List Char :=
  List.replicate (width - (decimalDigits x).length) '0' ++ decimalDigits x

/-- A zone designator of the form `Z±hhmm`: the letter `Z`, a sign, and four
digits. -/
def isZoneOffset (cs : List Char) : Bool :=
  match cs with
  | [z, sign, h1, h2, m1, m2] =>
    z == 'Z' && (sign == '+' || sign == '-')
      && h1.isDigit && h2.isDigit && m1.isDigit && m2.isDigit
  | _ => false

/-- A network in which every address resolves and every dial succeeds, used
in examples. -/
def sampleNet : Net :=
  { ResolveUDPAddr := fun address => some { addr := address }
    DialUDP := fun a => some { remote := a } }

/-- Reading a string as a decimal integer: an optional `-` and then digits. -/
def parseInt (s : String) : Option Int :=
  match s.data with
  | [] => none
  | c :: ds =>
    if c = '-' then (parseDigits ds).map fun (v : Nat) => -(Int.ofNat v)
    else (parseDigits (c :: ds)).map fun (v : Nat) => Int.ofNat v

end Log

namespace Log

/-! ## Decimal digits -/

theorem digitChar_isDigit (d : Nat) (h : d < 10) : (digitChar d).isDigit = true := by
  interval_cases d <;> decide

theorem digitChar_toNat (d : Nat) (h : d < 10) : (digitChar d).toNat - 48 = d := by
  interval_cases d <;> decide

theorem digitChar_ne_zero (d : Nat) (h : d < 10) (h0 : d ≠ 0) : digitChar d ≠ '0' := by
  interval_cases d <;> first | exact absurd rfl h0 | decide

theorem decimalDigits_of_lt (u : Nat) (h : u < 10) : decimalDigits u = [digitChar u] := by
  interval_cases u <;> first | rfl | simp [decimalDigits]

theorem decimalDigits_of_ge (u : Nat) (h : 10 ≤ u) :
    decimalDigits u = decimalDigits (u / 10) ++ [digitChar (u % 10)] := by
  have h1 : u ≠ 0 := by omega
  have h2 : u / 10 ≠ 0 := by omega
  have h3 : Nat.digits 10 u = (u % 10) :: Nat.digits 10 (u / 10) :=
    Nat.digits_def' (by decide) (by omega)
  simp [decimalDigits, h1, h2, h3]

theorem decimalDigits_ne_nil (u : Nat) : decimalDigits u ≠ [] := by
  by_cases h : u < 10
  · simp [decimalDigits_of_lt u h]
  · simp [decimalDigits_of_ge u (by omega)]

theorem decimalDigits_isDigit (u : Nat) : ∀ c ∈ decimalDigits u, c.isDigit = true := by
  induction u using Nat.strong_induction_on with
  | _ u ih =>
    by_cases h : u < 10
    · intro c hc
      rw [decimalDigits_of_lt u h] at hc
      rw [List.mem_singleton.mp hc]
      exact digitChar_isDigit u h
    · intro c hc
      rw [decimalDigits_of_ge u (by omega), List.mem_append] at hc
      rcases hc with hc | hc
      · exact ih (u / 10) (by omega) c hc
      · rw [List.mem_singleton.mp hc]
        exact digitChar_isDigit _ (by omega)

theorem decimalDigits_head (u : Nat) (h0 : u ≠ 0) : (decimalDigits u).head? ≠ some '0' := by
  induction u using Nat.strong_induction_on with
  | _ u ih =>
    by_cases h : u < 10
    · rw [decimalDigits_of_lt u h]
      simpa using digitChar_ne_zero u h h0
    · rw [decimalDigits_of_ge u (by omega)]
      have hne := decimalDigits_ne_nil (u / 10)
      have ih1 := ih (u / 10) (by omega) (by omega)
      cases hd : decimalDigits (u / 10) with
      | nil => exact absurd hd hne
      | cons a l => rw [hd] at ih1; simpa using ih1

theorem foldl_parseStep_decimalDigits (u : Nat) :
    (decimalDigits u).foldl parseStep (some 0) = some u := by
  induction u using Nat.strong_induction_on with
  | _ u ih =>
    by_cases h : u < 10
    · rw [decimalDigits_of_lt u h]
      simp [parseStep, digitChar_isDigit u h, digitChar_toNat u h]
    · rw [decimalDigits_of_ge u (by omega), List.foldl_append, ih (u / 10) (by omega)]
      simp only [List.foldl_cons, List.foldl_nil, parseStep, Option.some_bind,
        digitChar_isDigit (u % 10) (by omega), digitChar_toNat (u % 10) (by omega), if_true]
      congr 1
      omega

theorem parseDigits_decimalDigits (u : Nat) : parseDigits (decimalDigits u) = some u := by
  simp [parseDigits, decimalDigits_ne_nil, foldl_parseStep_decimalDigits]

theorem formatBits_eq (fuel : Nat) : ∀ (u : Nat) (acc : List Char), u < 10 ^ (fuel + 1) →
    formatBits (fuel + 1) u acc = decimalDigits u ++ acc := by
  induction fuel with
  | zero =>
    intro u acc h
    have h10 : u < 10 := by simpa using h
    simp [formatBits, h10, decimalDigits_of_lt u h10]
  | succ fuel ih =>
    intro u acc h
    by_cases h10 : u < 10
    · simp [formatBits, h10, decimalDigits_of_lt u h10]
    · have hdiv : u / 10 < 10 ^ (fuel + 1) := by
        apply Nat.div_lt_of_lt_mul
        rw [pow_succ] at h
        omega
      rw [formatBits, if_neg h10, ih (u / 10) _ hdiv, decimalDigits_of_ge u (by omega)]
      simp

theorem FormatInt_eq_base10 (n : Int) (h1 : -2 ^ 63 ≤ n) (h2 : n < 2 ^ 63) :
    FormatInt n = base10 n := by
  have hlt : n.natAbs < 10 ^ (19 + 1) := by omega
  have hfb := formatBits_eq 19 n.natAbs [] hlt
  simp only [List.append_nil] at hfb
  unfold FormatInt base10
  by_cases hn : n < 0
  · have hu : (2 ^ 64 - (n % 2 ^ 64).toNat) % 2 ^ 64 = n.natAbs := by omega
    simp only [hn, if_true, hu, hfb]
  · have hu : (n % 2 ^ 64).toNat = n.natAbs := by omega
    simp only [hn, if_false, hu, hfb]

theorem parseInt_base10 (n : Int) : parseInt (base10 n) = some n := by
  unfold parseInt base10
  by_cases hn : n < 0
  · simp only [hn, if_true, parseDigits_decimalDigits, Option.map_some']
    congr 1
    rw [Int.ofNat_eq_coe]
    omega
  · simp only [hn, if_false]
    cases hd : decimalDigits n.natAbs with
    | nil => exact absurd hd (decimalDigits_ne_nil _)
    | cons c ds =>
      have hc : c.isDigit = true := decimalDigits_isDigit n.natAbs c (by simp [hd])
      have hne : c ≠ '-' := by
        intro h
        rw [h] at hc
        exact absurd hc (by decide)
      simp only [hne, if_false]
      rw [← hd, parseDigits_decimalDigits]
      simp only [Option.map_some']
      congr 1
      rw [Int.ofNat_eq_coe]
      omega

/-! ## Theorems about `logger.go` -/

theorem emit_out (s : Logger) (t : Time) (level : Level) (msg : String)
    (fields : List Field) :
    (emit s t level msg fields).out
      = s.out
        ++ (match s.conn with
            | some c => [Event.Send c (json s t msg fields)]
            | none => [])
        ++ [Event.Write s.writer
            (if s.emitJson then json s t msg fields else text s t msg fields)] := by
  obtain ⟨conn, ej, lvl, pn, wr, out⟩ := s
  cases conn <;> cases ej <;> simp [emit, json, text]

theorem writesTo_emit (s : Logger) (t : Time) (level : Level) (msg : String)
    (fields : List Field) (w : Writer) :
    writesTo w (emit s t level msg fields).out
      = writesTo w s.out + (if w = s.writer then 1 else 0) := by
  rw [emit_out]
  unfold writesTo
  rw [List.countP_append, List.countP_append]
  have h1 : List.countP (fun e => match e with
        | Event.Write w1 _ => decide (w1 = w)
        | Event.Send _ _ => false)
      (match s.conn with
        | some c => [Event.Send c (json s t msg fields)]
        | none => []) = 0 := by
    cases s.conn <;> simp
  rw [h1]
  by_cases hw : w = s.writer
  · simp [hw]
  · have hw2 : ¬ s.writer = w := fun h => hw h.symm
    simp [hw, hw2]

/-- C1: for every state, every call level `c` and every message and field
list, the logging operation of level `c` adds exactly one write to the
primary sink when the configured minimum level is at most `c`, and none
otherwise; no other sink is written to. In particular, with the minimum level
set to `ERROR`, `Debug`, `Info` and `Warn` write nothing and `Error` writes
exactly once. -/
theorem C1_level_gate (c : Level) (s : Logger) (t : Time) (msg : String)
    (fields : List Field) (w : Writer) :
    writesTo w (logAt c s t msg fields).out
      = writesTo w s.out + (if w = s.writer ∧ s.level ≤ c then 1 else 0)
    ∧ writesTo s.writer (Debug (SetLevel Level.ERROR s) t msg fields).out
        = writesTo s.writer s.out
    ∧ writesTo s.writer (Info (SetLevel Level.ERROR s) t msg fields).out
        = writesTo s.writer s.out
    ∧ writesTo s.writer (Warn (SetLevel Level.ERROR s) t msg fields).out
        = writesTo s.writer s.out
    ∧ writesTo s.writer (Error (SetLevel Level.ERROR s) t msg fields).out
        = writesTo s.writer s.out + 1 := by
  refine ⟨?_, rfl, rfl, rfl, ?_⟩
  · by_cases hg : s.level ≤ c
    · have h : logAt c s t msg fields = emit s t c msg fields := by
        cases c <;> simp only [logAt, Debug, Info, Warn, Error, hg, if_true]
      rw [h, writesTo_emit]
      simp [hg]
    · have h : logAt c s t msg fields = s := by
        cases c <;> simp only [logAt, Debug, Info, Warn, Error, hg, if_false]
      rw [h]
      simp [hg]
  · have h : Error (SetLevel Level.ERROR s) t msg fields
        = emit (SetLevel Level.ERROR s) t Level.ERROR msg fields := rfl
    rw [h, writesTo_emit]
    simp [SetLevel]

/-- C2, at the failing input: with the minimum level `INFO` of the initial
configuration, `Error("boom")` writes a record whose level is `INFO`, in text
mode and in JSON mode. -/
theorem C2_Error_renders_minimum_level :
    (Error (init "app") sampleTime "boom" []).out
      = [Event.Write Writer.Stderr "2019-11-04T12:50:15.123456Z [app] INFO boom\n"]
    ∧ (Error (SetEmitJson true (init "app")) sampleTime "boom" []).out
      = [Event.Write Writer.Stderr
          ("\x7b\"time\":1572871815123456789,\"name\":\"app\",\"level\":\"INFO\","
            ++ "\"message\":\"boom\",\"fields\":\x7b\x7d\x7d")] := by
  decide

/-! ## Theorems about `field.go` -/

/-- C3: for every name, every signed integer kind and every `n` in the signed
64-bit range, `F(name, n)` is the unquoted field with that name whose value
is the base-10 representation of `n`: reading it back as a decimal integer
gives `n`, it is a `-` (only for a negative `n`) followed by digits, and the
digits have no leading zero. -/
theorem C3_F_signed_int (name typeName : String) (k : Kind) (n : Int)
    (hk : k ∈ [Kind.Int, Kind.Int8, Kind.Int16, Kind.Int32, Kind.Int64])
    (hlo : -2 ^ 63 ≤ n) (hhi : n < 2 ^ 63) :
    F name (some ⟨⟨typeName, k⟩, Data.int n⟩) = some ⟨name, FormatInt n, false⟩
    ∧ FormatInt n = base10 n
    ∧ parseInt (FormatInt n) = some n
    ∧ ∃ ds : List Char, (FormatInt n).data = (if n < 0 then '-' :: ds else ds)
        ∧ ds ≠ [] ∧ (∀ c ∈ ds, c.isDigit = true) ∧ (ds.head? = some '0' → ds = ['0']) := by
  have hF : F name (some ⟨⟨typeName, k⟩, Data.int n⟩) = some ⟨name, FormatInt n, false⟩ := by
    simp only [List.mem_cons, List.mem_singleton, List.mem_nil_iff, or_false] at hk
    rcases hk with h | h | h | h | h <;> subst h <;> rfl
  have hb := FormatInt_eq_base10 n hlo hhi
  refine ⟨hF, hb, by rw [hb]; exact parseInt_base10 n, decimalDigits n.natAbs, ?_,
    decimalDigits_ne_nil _, decimalDigits_isDigit _, ?_⟩
  · rw [hb]
    unfold base10
    by_cases hn : n < 0 <;> simp [hn]
  · intro h0
    by_cases hz : n.natAbs = 0
    · rw [hz]
      rfl
    · exact absurd h0 (decimalDigits_head _ hz)

/-- C3 at the least signed 64-bit integer. -/
theorem C3_F_signed_int_witness :
    Kind.Int64 ∈ [Kind.Int, Kind.Int8, Kind.Int16, Kind.Int32, Kind.Int64]
    ∧ -2 ^ 63 ≤ (-9223372036854775808 : Int)
    ∧ (-9223372036854775808 : Int) < 2 ^ 63
    ∧ F "name" (some ⟨⟨"int64", Kind.Int64⟩, Data.int (-9223372036854775808)⟩)
        = some ⟨"name", FormatInt (-9223372036854775808), false⟩
    ∧ FormatInt (-9223372036854775808) = "-9223372036854775808" :=
  ⟨by decide, by decide, by decide,
    (C3_F_signed_int "name" "int64" Kind.Int64 (-9223372036854775808)
      (by decide) (by decide) (by decide)).1,
    by decide⟩

/-- C4, at the failing input: `F(name, nil)` panics. `reflect.TypeOf(nil)` is
the nil `Type`, and `t.Kind()` dereferences it before the `switch` is
reached. -/
theorem C4_F_nil_panics (name : String) : F name none = none := rfl

/-- C5, as stated, fails: a value of the struct type `main.Point` is rendered
with the name of its kind, `struct`, not with the name of its type. -/
theorem C5_type_name_counterexample :
    ¬ (∀ (name : String) (v : Value),
        v.typ.kind ∉ [Kind.Bool, Kind.Int, Kind.Int8, Kind.Int16, Kind.Int32, Kind.Int64,
          Kind.String] →
        F name (some v) = some ⟨name, "<[Unknown Type " ++ v.typ.Name ++ "]>", false⟩) := by
  intro h
  have h1 := h "p" ⟨⟨"main.Point", Kind.Struct⟩, Data.other⟩ (by decide)
  revert h1
  decide

/-- C5, amended: for every name and every non-nil value whose kind is not
boolean, signed integer or string, `F(name, value)` is the unquoted field with
that name and the value `<[Unknown Type K]>`, where `K` is the name of the
kind of the value's type; the placeholder is not empty and contains `K`,
which is not empty either. -/
theorem C5_F_unknown_kind (name : String) (v : Value)
    (hk : v.typ.kind ∉ [Kind.Bool, Kind.Int, Kind.Int8, Kind.Int16, Kind.Int32, Kind.Int64,
      Kind.String]) :
    F name (some v)
      = some ⟨name, "<[Unknown Type " ++ kindNames v.typ.kind ++ "]>", false⟩
    ∧ "<[Unknown Type " ++ kindNames v.typ.kind ++ "]>" ≠ ""
    ∧ kindNames v.typ.kind ≠ ""
    ∧ ∃ before after : String,
        "<[Unknown Type " ++ kindNames v.typ.kind ++ "]>"
          = before ++ kindNames v.typ.kind ++ after := by
  obtain ⟨⟨tn, k⟩, d⟩ := v
  dsimp only at hk ⊢
  refine ⟨?_, ?_, ?_, "<[Unknown Type ", "]>", rfl⟩
  · cases k <;> first | rfl | exact absurd hk (by decide)
  · cases k <;> decide
  · cases k <;> decide

/-- C5, amended, at a value of the struct type `main.Point`. -/
theorem C5_F_unknown_kind_witness :
    Kind.Struct ∉ [Kind.Bool, Kind.Int, Kind.Int8, Kind.Int16, Kind.Int32, Kind.Int64,
      Kind.String]
    ∧ F "p" (some ⟨⟨"main.Point", Kind.Struct⟩, Data.other⟩)
      = some ⟨"p", "<[Unknown Type struct]>", false⟩ :=
  ⟨by decide, (C5_F_unknown_kind "p" ⟨⟨"main.Point", Kind.Struct⟩, Data.other⟩ (by decide)).1⟩

/-- C6: for every field, `Json()` is `"name":value` when `Quoted` is false
and `"name":"value"` when `Quoted` is true; name and value are copied as they
are. -/
theorem C6_json_form (name value : String) :
    (Field.mk name value false).Json = "\"" ++ name ++ "\":" ++ value
    ∧ (Field.mk name value true).Json = "\"" ++ name ++ "\":\"" ++ value ++ "\"" := by
  refine ⟨rfl, ?_⟩
  show "\"" ++ name ++ "\":" ++ ("\"" ++ value ++ "\"") = _
  simp only [String.append_assoc]
  rfl

/-- C7: for every field, `String()` is `name=value`, whatever `Quoted` is. -/
theorem C7_string_form (name value : String) (quoted : Bool) :
    (Field.mk name value quoted).String = name ++ "=" ++ value := rfl

/-- C8: for every name and every string `s`, whatever the name of its string
type, `F(name, s)` is the field with that name, value `s` unchanged and
`Quoted` true, whose JSON form is `"name":"s"`. -/
theorem C8_F_string (name typeName s : String) :
    F name (some ⟨⟨typeName, Kind.String⟩, Data.str s⟩) = some ⟨name, s, true⟩
    ∧ (F name (some ⟨⟨typeName, Kind.String⟩, Data.str s⟩)).map Field.Json
        = some ("\"" ++ name ++ "\":\"" ++ s ++ "\"") := by
  refine ⟨rfl, ?_⟩
  show some ("\"" ++ name ++ "\":" ++ ("\"" ++ s ++ "\"")) = _
  simp only [String.append_assoc]
  rfl

/-- C9: for every name and every boolean `b`, whatever the name of its
boolean type, `F(name, b)` is the unquoted field with that name and value
`true` or `false`. -/
theorem C9_F_bool (name typeName : String) (b : Bool) :
    F name (some ⟨⟨typeName, Kind.Bool⟩, Data.bool b⟩)
      = some ⟨name, if b then "true" else "false", false⟩ := by
  cases b <;> rfl

/-- C10: for every error `e`, `Err(e)` is the quoted field named `error`
whose value is the message of `e`; its text form is `error=message` and its
JSON form is `"error":"message"`. -/
theorem C10_Err (e : GoError) :
    Err (some e) = some ⟨"error", e.Error, true⟩
    ∧ (Err (some e)).map Field.String = some ("error=" ++ e.Error)
    ∧ (Err (some e)).map Field.Json = some ("\"error\":\"" ++ e.Error ++ "\"") := by
  refine ⟨rfl, rfl, ?_⟩
  show some ("\"" ++ "error" ++ "\":" ++ ("\"" ++ e.Error ++ "\"")) = _
  simp only [String.append_assoc]
  rfl

/-! ## The two renderings -/

theorem foldl_fieldString (fields : List Field) (acc : String) :
    fields.foldl (fun builder field => builder ++ " " ++ field.String) acc
      = acc ++ fieldString fields := by
  unfold fieldString
  induction fields generalizing acc with
  | nil => simp
  | cons f fs ih =>
    rw [List.foldl_cons, ih, List.foldl_cons, ih ("" ++ " " ++ f.String)]
    simp [String.append_assoc]

theorem fieldString_cons (f : Field) (fields : List Field) :
    fieldString (f :: fields) = " " ++ f.String ++ fieldString fields := by
  have h := foldl_fieldString fields ("" ++ " " ++ f.String)
  simp only [String.empty_append] at h
  exact h

theorem fieldString_eq_join (fields : List Field) :
    fieldString fields = String.join (fields.map fun f => " " ++ f.String) := by
  induction fields with
  | nil => rfl
  | cons f fs ih =>
    rw [fieldString_cons, ih]
    apply String.ext
    simp [String.data_join]

/-- C11: for every program name and level held by the package, and every
instant, message and field list, the text-mode record is the timestamp text,
then ` [programName] LEVEL message`, then a space and `f.String()` for each
field in order, then one newline; with no field the message is followed
directly by the newline. -/
theorem C11_text_record (s : Logger) (t : Time) (message : String) (fields : List Field) :
    text s t message fields
      = t.Format ++ " [" ++ s.programName ++ "] " ++ s.level.String ++ " " ++ message
          ++ String.join (fields.map fun f => " " ++ f.String) ++ "\n"
    ∧ text s t message []
      = t.Format ++ " [" ++ s.programName ++ "] " ++ s.level.String ++ " " ++ message
          ++ "\n" := by
  refine ⟨?_, ?_⟩
  · unfold text
    rw [fieldString_eq_join]
  · unfold text
    simp [fieldString, String.append_assoc]

theorem intercalate_go_append (p acc sep : String) (l : List String) :
    String.intercalate.go (p ++ acc) sep l = p ++ String.intercalate.go acc sep l := by
  induction l generalizing acc with
  | nil => rfl
  | cons a l ih =>
    simp only [String.intercalate.go]
    rw [← ih]
    simp [String.append_assoc]

theorem foldl_fieldJson (fields : List Field) (acc : String) :
    (fields.foldl
      (fun (st : String × Bool) field =>
        ((if st.2 then st.1 ++ "," else st.1) ++ field.Json, true))
      (acc, true)).1
      = String.intercalate.go acc "," (fields.map Field.Json) := by
  induction fields generalizing acc with
  | nil => rfl
  | cons f fs ih =>
    simp only [List.foldl_cons, List.map_cons, String.intercalate.go, if_true]
    exact ih _

theorem fieldJson_eq (fields : List Field) :
    fieldJson fields
      = "\x7b" ++ String.intercalate "," (fields.map Field.Json) ++ "\x7d" := by
  cases fields with
  | nil => rfl
  | cons f fs =>
    unfold fieldJson
    simp only [List.foldl_cons, List.map_cons, String.intercalate, Bool.false_eq_true,
      if_false]
    rw [foldl_fieldJson, intercalate_go_append]

/-- C12: for every program name and level held by the package, every message
and field list, and every instant whose nanoseconds since the Unix epoch fit
a signed 64-bit integer, the JSON-mode record has the keys `time`, `name`,
`level`, `message`, `fields` in this order, the time in decimal, and in the
fields object the `f.Json()` of each field in order joined by single commas;
an empty field list gives an empty object, and the record ends with the
closing brace, with no newline after it. -/
theorem C12_json_record (s : Logger) (t : Time) (message : String) (fields : List Field)
    (hlo : -2 ^ 63 ≤ t.UnixNano) (hhi : t.UnixNano < 2 ^ 63) :
    json s t message fields
      = "\x7b\"time\":" ++ base10 t.UnixNano ++ ",\"name\":\"" ++ s.programName
          ++ "\",\"level\":\"" ++ s.level.String ++ "\",\"message\":\"" ++ message
          ++ "\",\"fields\":\x7b" ++ String.intercalate "," (fields.map Field.Json)
          ++ "\x7d\x7d"
    ∧ json s t message []
      = "\x7b\"time\":" ++ base10 t.UnixNano ++ ",\"name\":\"" ++ s.programName
          ++ "\",\"level\":\"" ++ s.level.String ++ "\",\"message\":\"" ++ message
          ++ "\",\"fields\":\x7b\x7d\x7d"
    ∧ (json s t message fields).data.getLast? = some (Char.ofNat 125) := by
  have e1 : "\",\"fields\":" ++ "\x7b" = "\",\"fields\":\x7b" := by decide
  have e2 : "\x7d" ++ "\x7d" = "\x7d\x7d" := by decide
  have e3 : "\",\"fields\":" ++ "\x7b\x7d" ++ "\x7d" = "\",\"fields\":\x7b\x7d\x7d" := by
    decide
  have hb := FormatInt_eq_base10 t.UnixNano hlo hhi
  refine ⟨?_, ?_, ?_⟩
  · unfold json
    rw [fieldJson_eq, hb, ← e1, ← e2]
    simp only [String.append_assoc]
  · unfold json
    have h0 : fieldJson [] = "\x7b\x7d" := rfl
    rw [h0, hb, ← e3]
    simp only [String.append_assoc]
  · unfold json
    rw [String.data_append]
    exact List.getLast?_concat _

/-- C12 at the instant 2019-11-04 12:50:15.123456789 UTC, with two fields. -/
theorem C12_json_record_witness :
    -2 ^ 63 ≤ sampleTime.UnixNano ∧ sampleTime.UnixNano < 2 ^ 63
    ∧ json (init "app") sampleTime "boom" [⟨"a", "b", true⟩, ⟨"c", "1", false⟩]
      = "\x7b\"time\":" ++ base10 sampleTime.UnixNano ++ ",\"name\":\"" ++ "app"
          ++ "\",\"level\":\"" ++ "INFO" ++ "\",\"message\":\"" ++ "boom"
          ++ "\",\"fields\":\x7b" ++ "\"a\":\"b\",\"c\":1" ++ "\x7d\x7d" :=
  ⟨by decide, by decide,
    (C12_json_record (init "app") sampleTime "boom" [⟨"a", "b", true⟩, ⟨"c", "1", false⟩]
      (by decide) (by decide)).1⟩

/-! ## Dispatch and configuration -/

theorem emit_eq (s : Logger) (t : Time) (level : Level) (msg : String)
    (fields : List Field) :
    emit s t level msg fields = { s with out := s.out ++ emitted s t msg fields } := by
  obtain ⟨conn, ej, lvl, pn, wr, out⟩ := s
  cases conn <;> cases ej <;> simp [emit, emitted, json, text]

theorem logAt_eq (c : Level) (s : Logger) (t : Time) (msg : String) (fields : List Field) :
    logAt c s t msg fields
      = { s with out := s.out ++ (if s.level ≤ c then emitted s t msg fields else []) } := by
  by_cases hg : s.level ≤ c
  · have h : logAt c s t msg fields = emit s t c msg fields := by
      cases c <;> simp only [logAt, Debug, Info, Warn, Error, hg, if_true]
    rw [h, emit_eq]
    simp [hg]
  · have h : logAt c s t msg fields = s := by
      cases c <;> simp only [logAt, Debug, Info, Warn, Error, hg, if_false]
    rw [h]
    simp [hg]

theorem step_emitJson (s : Logger) (op : Op) (hj : s.emitJson = true)
    (hop : op ≠ Op.setEmitJson false) : (step s op).state.emitJson = true := by
  cases op with
  | setEmitJson b =>
    cases b
    · exact absurd rfl hop
    · rfl
  | setLevel l => exact hj
  | setWriter w => cases w <;> exact hj
  | setServer net address =>
    show (SetServer net address s).state.emitJson = true
    unfold SetServer
    split
    · exact hj
    · split
      · exact hj
      · rfl
  | log c t msg fields =>
    simp only [step, Result.state, logAt_eq]
    exact hj

theorem run_emitJson (ops : List Op) : ∀ (s : Logger), s.emitJson = true →
    (∀ op ∈ ops, op ≠ Op.setEmitJson false) → (run s ops).emitJson = true := by
  induction ops with
  | nil => intro s hj _; exact hj
  | cons op ops ih =>
    intro s hj hops
    have h1 := step_emitJson s op hj (hops op (List.mem_cons_self _ _))
    exact ih _ h1 (fun o ho => hops o (List.mem_cons_of_mem _ ho))

theorem step_writer (s : Logger) (op : Op)
    (hop : ∀ w2, op ≠ Op.setWriter (some w2)) : (step s op).state.writer = s.writer := by
  cases op with
  | setEmitJson b => rfl
  | setLevel l => rfl
  | setWriter w =>
    cases w with
    | none => rfl
    | some w2 => exact absurd rfl (hop w2)
  | setServer net address =>
    show (SetServer net address s).state.writer = s.writer
    unfold SetServer
    split
    · rfl
    · split <;> rfl
  | log c t msg fields =>
    simp only [step, Result.state, logAt_eq]

theorem run_writer (ops : List Op) : ∀ (s : Logger),
    (∀ op ∈ ops, ∀ w2, op ≠ Op.setWriter (some w2)) → (run s ops).writer = s.writer := by
  induction ops with
  | nil => intro s _; rfl
  | cons op ops ih =>
    intro s hops
    have h1 := step_writer s op (hops op (List.mem_cons_self _ _))
    have h2 := ih (step s op).state (fun o ho => hops o (List.mem_cons_of_mem _ ho))
    exact h2.trans h1

theorem writesTo_emitted (s : Logger) (t : Time) (msg : String) (fields : List Field)
    (w : Writer) :
    writesTo w (emitted s t msg fields) = if w = s.writer then 1 else 0 := by
  unfold writesTo emitted
  by_cases hw : w = s.writer
  · cases s.conn <;> simp [hw]
  · have hw2 : ¬ s.writer = w := fun h => hw h.symm
    cases s.conn <;> simp [hw, hw2]

/-- C13: for every state and every logging call, the call adds its effects
only when it passes the level gate. With a mirror configured, an accepted
call hands exactly one payload to the mirror, the JSON rendering for the same
instant, message and fields as the primary write, whatever the primary mode;
in JSON mode the primary sink receives the same bytes. Without a mirror, or
when the call is rejected, nothing is handed to a mirror. -/
theorem C13_mirror (c : Level) (s : Logger) (t : Time) (msg : String)
    (fields : List Field) :
    (logAt c s t msg fields).out
      = s.out ++ (if s.level ≤ c then
          (match s.conn with
            | some k => [Event.Send k (json s t msg fields)]
            | none => [])
          ++ [Event.Write s.writer
              (if s.emitJson then json s t msg fields else text s t msg fields)]
        else [])
    ∧ mirrored (logAt c s t msg fields).out
      = mirrored s.out
        ++ (if s.level ≤ c ∧ s.conn.isSome then [json s t msg fields] else []) := by
  rw [logAt_eq]
  refine ⟨rfl, ?_⟩
  by_cases hg : s.level ≤ c
  · cases hc : s.conn <;> simp [mirrored, emitted, hg, hc]
  · simp [mirrored, hg]

/-- C16: in the initial configuration the minimum level is `INFO`, JSON mode
is off and there is no mirror; `Debug` performs no effect, and each of `Info`,
`Warn` and `Error` performs exactly one effect, the write of the text-mode
record to the standard error stream. -/
theorem C16_initial_configuration (base : String) (t : Time) (msg : String)
    (fields : List Field) :
    (init base).level = Level.INFO
    ∧ (init base).emitJson = false
    ∧ (init base).conn = none
    ∧ (Debug (init base) t msg fields).out = []
    ∧ (Info (init base) t msg fields).out
        = [Event.Write Writer.Stderr (text (init base) t msg fields)]
    ∧ (Warn (init base) t msg fields).out
        = [Event.Write Writer.Stderr (text (init base) t msg fields)]
    ∧ (Error (init base) t msg fields).out
        = [Event.Write Writer.Stderr (text (init base) t msg fields)] :=
  ⟨rfl, rfl, rfl, rfl, rfl, rfl, rfl⟩

/-- C14: when `SetServer` succeeds, from whatever state (also one in which
`SetEmitJson(false)` was called before), JSON mode is on, it stays on through
every later sequence of calls that has no `SetEmitJson(false)`, and every
accepted logging call made after them writes the JSON rendering to the
primary sink. -/
theorem C14_SetServer_forces_json (net : Net) (address : String) (s s1 : Logger)
    (h : SetServer net address s = Result.ok s1)
    (ops : List Op) (hops : ∀ op ∈ ops, op ≠ Op.setEmitJson false)
    (c : Level) (t : Time) (msg : String) (fields : List Field)
    (hacc : (run s1 ops).level ≤ c) :
    s1.emitJson = true
    ∧ (run s1 ops).emitJson = true
    ∧ (logAt c (run s1 ops) t msg fields).out
      = (run s1 ops).out
        ++ (match (run s1 ops).conn with
            | some k => [Event.Send k (json (run s1 ops) t msg fields)]
            | none => [])
        ++ [Event.Write (run s1 ops).writer (json (run s1 ops) t msg fields)] := by
  have h1 : s1.emitJson = true := by
    unfold SetServer at h
    split at h
    · exact Result.noConfusion h
    · split at h
      · exact Result.noConfusion h
      · injection h with h
        rw [← h]
  have h2 := run_emitJson ops s1 h1 hops
  refine ⟨h1, h2, ?_⟩
  rw [logAt_eq]
  simp [hacc, emitted, h2]

/-- C14 at a mirror configured after `SetEmitJson(false)`, followed by two
other calls. -/
theorem C14_SetServer_forces_json_witness :
    SetServer sampleNet "127.0.0.1:514" (SetEmitJson false (init "app"))
      = Result.ok { SetEmitJson false (init "app") with
          conn := some { remote := { addr := "127.0.0.1:514" } }, emitJson := true }
    ∧ (∀ op ∈ [Op.setLevel Level.DEBUG, Op.log Level.INFO sampleTime "x" []],
        op ≠ Op.setEmitJson false)
    ∧ (run { SetEmitJson false (init "app") with
          conn := some { remote := { addr := "127.0.0.1:514" } }, emitJson := true }
        [Op.setLevel Level.DEBUG, Op.log Level.INFO sampleTime "x" []]).emitJson = true :=
  ⟨rfl, by simp,
    (C14_SetServer_forces_json sampleNet "127.0.0.1:514" (SetEmitJson false (init "app"))
      { SetEmitJson false (init "app") with
          conn := some { remote := { addr := "127.0.0.1:514" } }, emitJson := true }
      rfl [Op.setLevel Level.DEBUG, Op.log Level.INFO sampleTime "x" []] (by simp)
      Level.ERROR sampleTime "boom" [] (by decide)).2.1⟩

/-- C15: `SetWriter(nil)` panics and leaves every variable, the sink among
them, as it was; for every non-nil `w`, `SetWriter(w)` returns with the sink
set to `w`, the sink stays `w` through every later sequence of calls without
another successful `SetWriter`, and every accepted logging call made after
them adds one write to `w` and none to any other sink, the previous one
included. -/
theorem C15_SetWriter (s : Logger) (w : Writer)
    (ops : List Op) (hops : ∀ op ∈ ops, ∀ w2, op ≠ Op.setWriter (some w2))
    (c : Level) (t : Time) (msg : String) (fields : List Field)
    (hacc : (run { s with writer := w } ops).level ≤ c)
    (w0 : Writer) (hw0 : w0 ≠ w) :
    SetWriter none s = Result.panic s
    ∧ SetWriter (some w) s = Result.ok { s with writer := w }
    ∧ (run { s with writer := w } ops).writer = w
    ∧ writesTo w (logAt c (run { s with writer := w } ops) t msg fields).out
        = writesTo w (run { s with writer := w } ops).out + 1
    ∧ writesTo w0 (logAt c (run { s with writer := w } ops) t msg fields).out
        = writesTo w0 (run { s with writer := w } ops).out := by
  have hw : (run { s with writer := w } ops).writer = w := run_writer ops _ hops
  refine ⟨rfl, rfl, hw, ?_, ?_⟩
  · rw [logAt_eq]
    simp only [hacc, if_true]
    unfold writesTo
    rw [List.countP_append]
    have h := writesTo_emitted (run { s with writer := w } ops) t msg fields w
    unfold writesTo at h
    rw [h, hw]
    simp
  · rw [logAt_eq]
    simp only [hacc, if_true]
    unfold writesTo
    rw [List.countP_append]
    have h := writesTo_emitted (run { s with writer := w } ops) t msg fields w0
    unfold writesTo at h
    rw [h, hw]
    simp [hw0]

/-- C15 at the sink number 1 replacing the standard error stream. -/
theorem C15_SetWriter_witness :
    (∀ op ∈ [Op.setLevel Level.DEBUG, Op.setWriter none],
        ∀ w2, op ≠ Op.setWriter (some w2))
    ∧ (run { init "app" with writer := Writer.stream 1 }
        [Op.setLevel Level.DEBUG, Op.setWriter none]).level ≤ Level.INFO
    ∧ Writer.Stderr ≠ Writer.stream 1
    ∧ SetWriter none (init "app") = Result.panic (init "app")
    ∧ SetWriter (some (Writer.stream 1)) (init "app")
        = Result.ok { init "app" with writer := Writer.stream 1 } :=
  have h := C15_SetWriter (init "app") (Writer.stream 1)
    [Op.setLevel Level.DEBUG, Op.setWriter none] (by simp)
    Level.INFO sampleTime "boom" [] (by decide) Writer.Stderr (by decide)
  ⟨by simp, by decide, by decide, h.1, h.2.1⟩

/-- C18: the logging operations leave the minimum level, the JSON flag, the
program name, the primary sink and the mirror as they are, accepted or not;
`SetLevel` changes only the minimum level, `SetEmitJson` only the JSON flag and
`SetWriter` with a non-nil sink only the primary sink. Hence from a state in
which the JSON flag is true, the flag is still true after every sequence of
calls that has no `SetEmitJson(false)`. -/
theorem C18_frame (c : Level) (s : Logger) (t : Time) (msg : String)
    (fields : List Field) (l : Level) (b : Bool) (w : Writer)
    (s0 : Logger) (ops : List Op)
    (hj : s0.emitJson = true) (hops : ∀ op ∈ ops, op ≠ Op.setEmitJson false) :
    ((logAt c s t msg fields).level = s.level
      ∧ (logAt c s t msg fields).emitJson = s.emitJson
      ∧ (logAt c s t msg fields).programName = s.programName
      ∧ (logAt c s t msg fields).writer = s.writer
      ∧ (logAt c s t msg fields).conn = s.conn)
    ∧ SetLevel l s = { s with level := l }
    ∧ SetEmitJson b s = { s with emitJson := b }
    ∧ SetWriter (some w) s = Result.ok { s with writer := w }
    ∧ (run s0 ops).emitJson = true := by
  refine ⟨?_, rfl, rfl, rfl, run_emitJson ops s0 hj hops⟩
  rw [logAt_eq]
  exact ⟨rfl, rfl, rfl, rfl, rfl⟩

/-- C18 at a sequence of a logging call, two setters and a panicking
`SetWriter(nil)`, from the initial configuration switched to JSON. -/
theorem C18_frame_witness :
    (SetEmitJson true (init "app")).emitJson = true
    ∧ (∀ op ∈ [Op.log Level.ERROR sampleTime "x" [], Op.setLevel Level.DEBUG,
          Op.setWriter none, Op.setEmitJson true],
        op ≠ Op.setEmitJson false)
    ∧ (run (SetEmitJson true (init "app"))
        [Op.log Level.ERROR sampleTime "x" [], Op.setLevel Level.DEBUG,
          Op.setWriter none, Op.setEmitJson true]).emitJson = true :=
  ⟨rfl, by simp,
    (C18_frame Level.INFO (init "app") sampleTime "boom" [] Level.WARN true Writer.Stderr
      (SetEmitJson true (init "app"))
      [Op.log Level.ERROR sampleTime "x" [], Op.setLevel Level.DEBUG,
        Op.setWriter none, Op.setEmitJson true] rfl (by simp)).2.2.2.2⟩

/-! ## The timestamp and the line structure of a text record -/

theorem appendInt_eq (x width : Nat) (h : x < 10 ^ (19 + 1)) :
    appendInt x width = zeroPad width x := by
  unfold appendInt zeroPad
  have hfb := formatBits_eq 19 x [] h
  simp only [List.append_nil] at hfb
  simp only [hfb]

theorem decimalDigits_length_le (k : Nat) : ∀ x : Nat, x < 10 ^ (k + 1) →
    (decimalDigits x).length ≤ k + 1 := by
  induction k with
  | zero =>
    intro x h
    have h10 : x < 10 := by simpa using h
    simp [decimalDigits_of_lt x h10]
  | succ k ih =>
    intro x h
    by_cases h10 : x < 10
    · simp [decimalDigits_of_lt x h10]
    · have hdiv : x / 10 < 10 ^ (k + 1) := by
        apply Nat.div_lt_of_lt_mul
        rw [pow_succ] at h
        omega
      rw [decimalDigits_of_ge x (by omega)]
      have := ih (x / 10) hdiv
      simp only [List.length_append, List.length_singleton]
      omega

theorem zeroPad_length (width x : Nat) (h : (decimalDigits x).length ≤ width) :
    (zeroPad width x).length = width := by
  simp only [zeroPad, List.length_append, List.length_replicate]
  omega

theorem count_newline_level (l : Level) : l.String.data.count '\n' = 0 := by
  cases l <;> decide

theorem count_newline_fieldString (fields : List Field)
    (hf : ∀ f ∈ fields, '\n' ∉ f.Name.data ∧ '\n' ∉ f.StringValue.data) :
    (fieldString fields).data.count '\n' = 0 := by
  induction fields with
  | nil => rfl
  | cons f fs ih =>
    have h1 := hf f (List.mem_cons_self _ _)
    have h2 := ih (fun g hg => hf g (List.mem_cons_of_mem _ hg))
    have hn : f.Name.data.count '\n' = 0 := List.count_eq_zero.mpr h1.1
    have hv : f.StringValue.data.count '\n' = 0 := List.count_eq_zero.mpr h1.2
    rw [fieldString_cons]
    simp only [Field.String, String.data_append, List.count_append, hn, hv, h2]
    decide

/-- C17, as stated, fails: at 2019-11-04 12:50:15.123456789 UTC the timestamp
is `2019-11-04T12:50:15.123456Z`, which does not end with a designator of the
form `Z±hhmm`. -/
theorem C17_zone_counterexample :
    sampleTime.Format = "2019-11-04T12:50:15.123456Z"
    ∧ ¬ ∃ stamp zone : List Char,
        sampleTime.Format.data = stamp ++ zone ∧ isZoneOffset zone = true := by
  refine ⟨by decide, ?_⟩
  rintro ⟨stamp, zone, h, hz⟩
  have hd : sampleTime.Format.data = "2019-11-04T12:50:15.123456Z".data := by decide
  rw [hd] at h
  rcases zone with _ | ⟨a, _ | ⟨b, _ | ⟨c, _ | ⟨d, _ | ⟨e, _ | ⟨f, _ | ⟨g, r⟩⟩⟩⟩⟩⟩⟩ <;>
    simp only [isZoneOffset, Bool.false_eq_true] at hz
  have h2 := congrArg (fun l => (l.reverse.take 6).reverse) h
  simp at h2
  have ha : a = '2' := h2.1.symm
  rw [ha] at hz
  simp at hz

/-- C17, amended: for every instant whose calendar fields are in range, the
timestamp that starts a text-mode record is the year on four digits, the
month, day, hour, minute and second on two digits each and the microseconds
on six digits, all padded with zeros, with the separators of
`YYYY-MM-DDTHH:MM:SS.ffffff`, followed by the single letter `Z`: 27 characters
in all, the last one `Z`. -/
theorem C17_timestamp (s : Logger) (t : Time) (message : String) (fields : List Field)
    (hY : t.Year ≤ 9999) (hM : t.Month ≤ 12) (hD : t.Day ≤ 31) (hh : t.Hour ≤ 23)
    (hm : t.Minute ≤ 59) (hs : t.Second ≤ 59) (hn : t.Nanosecond ≤ 999999999) :
    (∃ rest : String, text s t message fields = t.Format ++ rest)
    ∧ t.Format = String.mk (zeroPad 4 t.Year ++ '-' :: zeroPad 2 t.Month
        ++ '-' :: zeroPad 2 t.Day ++ 'T' :: zeroPad 2 t.Hour ++ ':' :: zeroPad 2 t.Minute
        ++ ':' :: zeroPad 2 t.Second ++ '.' :: zeroPad 6 (t.Nanosecond / 1000) ++ ['Z'])
    ∧ (zeroPad 4 t.Year).length = 4
    ∧ (zeroPad 2 t.Month).length = 2
    ∧ (zeroPad 2 t.Day).length = 2
    ∧ (zeroPad 2 t.Hour).length = 2
    ∧ (zeroPad 2 t.Minute).length = 2
    ∧ (zeroPad 2 t.Second).length = 2
    ∧ (zeroPad 6 (t.Nanosecond / 1000)).length = 6
    ∧ t.Format.data.length = 27
    ∧ t.Format.data.getLast? = some 'Z' := by
  have lY := zeroPad_length 4 t.Year (decimalDigits_length_le 3 _ (by norm_num; omega))
  have lM := zeroPad_length 2 t.Month (decimalDigits_length_le 1 _ (by norm_num; omega))
  have lD := zeroPad_length 2 t.Day (decimalDigits_length_le 1 _ (by norm_num; omega))
  have lh := zeroPad_length 2 t.Hour (decimalDigits_length_le 1 _ (by norm_num; omega))
  have lm := zeroPad_length 2 t.Minute (decimalDigits_length_le 1 _ (by norm_num; omega))
  have ls := zeroPad_length 2 t.Second (decimalDigits_length_le 1 _ (by norm_num; omega))
  have lu := zeroPad_length 6 (t.Nanosecond / 1000)
    (decimalDigits_length_le 5 _ (by norm_num; omega))
  have hF : t.Format = String.mk (zeroPad 4 t.Year ++ '-' :: zeroPad 2 t.Month
        ++ '-' :: zeroPad 2 t.Day ++ 'T' :: zeroPad 2 t.Hour ++ ':' :: zeroPad 2 t.Minute
        ++ ':' :: zeroPad 2 t.Second ++ '.' :: zeroPad 6 (t.Nanosecond / 1000) ++ ['Z']) := by
    unfold Time.Format
    rw [appendInt_eq t.Year 4 (by norm_num; omega), appendInt_eq t.Month 2 (by norm_num; omega),
      appendInt_eq t.Day 2 (by norm_num; omega), appendInt_eq t.Hour 2 (by norm_num; omega),
      appendInt_eq t.Minute 2 (by norm_num; omega),
      appendInt_eq t.Second 2 (by norm_num; omega),
      appendInt_eq (t.Nanosecond / 1000) 6 (by norm_num; omega)]
  refine ⟨⟨" [" ++ s.programName ++ "] " ++ s.level.String ++ " " ++ message
      ++ fieldString fields ++ "\n", ?_⟩, hF, lY, lM, lD, lh, lm, ls, lu, ?_, ?_⟩
  · unfold text
    simp only [String.append_assoc]
  · rw [hF]
    simp only [List.length_append, List.length_cons, List.length_nil, lY, lM, lD, lh, lm,
      ls, lu]
  · rw [hF]
    have e : ∀ (l1 l2 l3 l4 l5 l6 l7 : List Char),
        l1 ++ '-' :: l2 ++ '-' :: l3 ++ 'T' :: l4 ++ ':' :: l5 ++ ':' :: l6 ++ '.' :: l7 ++ ['Z']
          = (l1 ++ '-' :: l2 ++ '-' :: l3 ++ 'T' :: l4 ++ ':' :: l5 ++ ':' :: l6 ++ '.' :: l7)
            ++ ['Z'] := by
      intros
      simp
    rw [e]
    exact List.getLast?_concat _

/-- C17, amended, at 2019-11-04 12:50:15.123456789 UTC. -/
theorem C17_timestamp_witness :
    sampleTime.Year ≤ 9999 ∧ sampleTime.Month ≤ 12 ∧ sampleTime.Day ≤ 31
    ∧ sampleTime.Hour ≤ 23 ∧ sampleTime.Minute ≤ 59 ∧ sampleTime.Second ≤ 59
    ∧ sampleTime.Nanosecond ≤ 999999999
    ∧ sampleTime.Format.data.length = 27
    ∧ sampleTime.Format.data.getLast? = some 'Z' :=
  have h := C17_timestamp (init "app") sampleTime "boom" []
    (by decide) (by decide) (by decide) (by decide) (by decide) (by decide) (by decide)
  ⟨by decide, by decide, by decide, by decide, by decide, by decide, by decide,
    h.2.2.2.2.2.2.2.2.2.1, h.2.2.2.2.2.2.2.2.2.2⟩

/-- C20: for every record whose timestamp text, program name, message and
field names and values contain no newline, the text-mode rendering contains
exactly one newline, and it is its last character; and there is a message
with a newline for which the rendering contains more than one. -/
theorem C20_one_line (s : Logger) (t : Time) (message : String) (fields : List Field)
    (ht : '\n' ∉ t.Format.data) (hp : '\n' ∉ s.programName.data)
    (hm : '\n' ∉ message.data)
    (hf : ∀ f ∈ fields, '\n' ∉ f.Name.data ∧ '\n' ∉ f.StringValue.data) :
    (text s t message fields).data.count '\n' = 1
    ∧ (text s t message fields).data.getLast? = some '\n'
    ∧ ∃ m : String, '\n' ∈ m.data ∧ 1 < (text s t m fields).data.count '\n' := by
  have ct : t.Format.data.count '\n' = 0 := List.count_eq_zero.mpr ht
  have cp : s.programName.data.count '\n' = 0 := List.count_eq_zero.mpr hp
  have cm : message.data.count '\n' = 0 := List.count_eq_zero.mpr hm
  have cl := count_newline_level s.level
  have cf := count_newline_fieldString fields hf
  have c1 : (" [" : String).data.count '\n' = 0 := by decide
  have c2 : ("] " : String).data.count '\n' = 0 := by decide
  have c3 : (" " : String).data.count '\n' = 0 := by decide
  have c4 : ("\n" : String).data.count '\n' = 1 := by decide
  have c5 : ("a\nb" : String).data.count '\n' = 1 := by decide
  refine ⟨?_, ?_, "a\nb", by decide, ?_⟩
  · unfold text
    simp only [String.data_append, List.count_append, ct, cp, cm, cl, cf, c1, c2, c3, c4]
  · unfold text
    rw [String.data_append]
    exact List.getLast?_concat _
  · unfold text
    simp only [String.data_append, List.count_append, ct, cp, cl, cf, c1, c2, c3, c4, c5]
    decide

/-- C20 at a record with two fields. -/
theorem C20_one_line_witness :
    '\n' ∉ sampleTime.Format.data
    ∧ '\n' ∉ (init "app").programName.data
    ∧ '\n' ∉ ("boom" : String).data
    ∧ (∀ f ∈ [Field.mk "a" "b" true, Field.mk "c" "1" false],
        '\n' ∉ f.Name.data ∧ '\n' ∉ f.StringValue.data)
    ∧ (text (init "app") sampleTime "boom"
        [Field.mk "a" "b" true, Field.mk "c" "1" false]).data.count '\n' = 1 :=
  ⟨by decide, by decide, by decide, by decide,
    (C20_one_line (init "app") sampleTime "boom"
      [Field.mk "a" "b" true, Field.mk "c" "1" false]
      (by decide) (by decide) (by decide) (by decide)).1⟩

end Log
